import Mathlib

/-!
Verification of the strapdown IMU integration engine of
`src/imu_integration/src/estimator/activity.cpp`.

The C++ code works on Eigen doubles; the embedding models the scalar type as
`ℝ`.  Vectors, quaternions and 3×3 matrices are modelled componentwise,
mirroring the Eigen operations the source uses.  Two points of the modelling
deserve explicit mention:

* Eigen's `normalized()` divides by the norm.  On a zero vector the division
  `0/0` produces IEEE NaN components which then poison every subsequent
  arithmetic result (the quaternion increment, the composed quaternion, the
  rotation block written back into the pose).  A real-number embedding has no
  NaN, so the normalization is modelled as an `Option` which is `none`
  exactly when the source divides by a zero norm; the `none` is propagated by
  the callers exactly as NaN propagates through the source.  Likewise
  `std::deque::back()` on an empty deque (undefined behavior) is modelled by
  `List.getLast?` returning `none`.

* The pose matrix `pose_` stores its rotation block as a 3×3 matrix, but the
  source only ever writes that block as `q.normalized().toRotationMatrix()`
  and only ever reads it back through the `Eigen::Quaterniond` constructor.
  For a proper rotation block the matrix-to-quaternion conversion recovers
  the quaternion up to sign, and quaternion sign is invisible in every
  matrix-valued observable (`R(q) = R(-q)`).  The state therefore carries the
  orientation as the quaternion `q`; the stored rotation block is
  `quatToMatrix q` throughout.
-/

noncomputable section

namespace ImuIntegration

/-- A 3-vector of reals, modelling `Eigen::Vector3d`. -/
structure Vec3 where
  x : ℝ
  y : ℝ
  z : ℝ
  deriving DecidableEq

namespace Vec3

def add (a b : Vec3) : Vec3 := ⟨a.x + b.x, a.y + b.y, a.z + b.z⟩

def sub (a b : Vec3) : Vec3 := ⟨a.x - b.x, a.y - b.y, a.z - b.z⟩

def smul (r : ℝ) (v : Vec3) : Vec3 := ⟨r * v.x, r * v.y, r * v.z⟩

instance : Add Vec3 := ⟨Vec3.add⟩

instance : Sub Vec3 := ⟨Vec3.sub⟩

instance : SMul ℝ Vec3 := ⟨Vec3.smul⟩

instance : Zero Vec3 := ⟨⟨0, 0, 0⟩⟩

/-- Dot product, modelling `Eigen`'s `dot`. -/
def dot (a b : Vec3) : ℝ := a.x * b.x + a.y * b.y + a.z * b.z

/-- Squared norm (`squaredNorm()`). -/
def normSq (v : Vec3) : ℝ := v.x ^ 2 + v.y ^ 2 + v.z ^ 2

/-- Euclidean norm (`norm()`). -/
def norm (v : Vec3) : ℝ := Real.sqrt v.normSq

end Vec3

/-- A quaternion `(w, x, y, z)`, modelling `Eigen::Quaterniond` in the
coefficient order of its `(w, x, y, z)` constructor used by the source. -/
structure Quat where
  w : ℝ
  x : ℝ
  y : ℝ
  z : ℝ

namespace Quat

/-- Hamilton product, the semantics of `Eigen`'s `operator*` on quaternions. -/
def mul (a b : Quat) : Quat :=
  ⟨a.w * b.w - a.x * b.x - a.y * b.y - a.z * b.z,
   a.w * b.x + a.x * b.w + a.y * b.z - a.z * b.y,
   a.w * b.y - a.x * b.z + a.y * b.w + a.z * b.x,
   a.w * b.z + a.x * b.y - a.y * b.x + a.z * b.w⟩

def smul (r : ℝ) (q : Quat) : Quat := ⟨r * q.w, r * q.x, r * q.y, r * q.z⟩

instance : SMul ℝ Quat := ⟨Quat.smul⟩

def normSq (q : Quat) : ℝ := q.w ^ 2 + q.x ^ 2 + q.y ^ 2 + q.z ^ 2

def norm (q : Quat) : ℝ := Real.sqrt q.normSq

/-- The identity quaternion. -/
def one : Quat := ⟨1, 0, 0, 0⟩

end Quat

/-- A 3×3 real matrix, modelling `Eigen::Matrix3d`. -/
structure Mat3 where
  m00 : ℝ
  m01 : ℝ
  m02 : ℝ
  m10 : ℝ
  m11 : ℝ
  m12 : ℝ
  m20 : ℝ
  m21 : ℝ
  m22 : ℝ

namespace Mat3

/-- Matrix-vector product. -/
def mulVec (M : Mat3) (v : Vec3) : Vec3 :=
  ⟨M.m00 * v.x + M.m01 * v.y + M.m02 * v.z,
   M.m10 * v.x + M.m11 * v.y + M.m12 * v.z,
   M.m20 * v.x + M.m21 * v.y + M.m22 * v.z⟩

/-- First column. -/
def col0 (M : Mat3) : Vec3 := ⟨M.m00, M.m10, M.m20⟩

/-- Second column. -/
def col1 (M : Mat3) : Vec3 := ⟨M.m01, M.m11, M.m21⟩

/-- Third column. -/
def col2 (M : Mat3) : Vec3 := ⟨M.m02, M.m12, M.m22⟩

/-- Determinant by cofactor expansion along the first row. -/
def det (M : Mat3) : ℝ :=
  M.m00 * (M.m11 * M.m22 - M.m12 * M.m21)
    - M.m01 * (M.m10 * M.m22 - M.m12 * M.m20)
    + M.m02 * (M.m10 * M.m21 - M.m11 * M.m20)

/-- The identity matrix. -/
def id3 : Mat3 := ⟨1, 0, 0, 0, 1, 0, 0, 0, 1⟩

end Mat3

/-- `Eigen::Quaterniond::toRotationMatrix` (the unit-quaternion formula used
by Eigen). -/
def quatToMatrix (q : Quat) : Mat3 :=
  ⟨1 - 2 * (q.y ^ 2 + q.z ^ 2), 2 * (q.x * q.y - q.w * q.z), 2 * (q.x * q.z + q.w * q.y),
   2 * (q.x * q.y + q.w * q.z), 1 - 2 * (q.x ^ 2 + q.z ^ 2), 2 * (q.y * q.z - q.w * q.x),
   2 * (q.x * q.z - q.w * q.y), 2 * (q.y * q.z + q.w * q.x), 1 - 2 * (q.x ^ 2 + q.y ^ 2)⟩

/-- Eigen `Vector3d::normalized()` is `v / v.norm()`.  When the norm is zero
the IEEE division `0/0` yields NaN components; the real-number model returns
`none` in exactly that case and the callers propagate the `none` the way the
source propagates the NaNs. -/
def vnormalize (v : Vec3) : Option Vec3 :=
  if v.norm = 0 then none else some ((1 / v.norm) • v)

/-- Eigen `Quaterniond::normalized()`, with the same zero-norm convention as
`vnormalize`. -/
def qnormalize (q : Quat) : Option Quat :=
  if q.norm = 0 then none else some ((1 / q.norm) • q)

/-- One buffered IMU measurement (`IMUData`): timestamp, body-frame angular
velocity, body-frame specific force. -/
structure IMUData where
  time : ℝ
  angular_velocity : Vec3
  linear_acceleration : Vec3

/-- One buffered auxiliary odometry sample (`OdomData`).  The 4×4 pose is
carried as its rotation block (as a quaternion, see the file header) plus its
translation block. -/
structure OdomData where
  time : ℝ
  rot : Quat
  pos : Vec3
  vel : Vec3

/-- The mutable state of `Activity`: the navigation state (`pose_`, `vel_`,
`init_time_`, `initialized_`), the calibration constants fixed by the
constructor/`Init` (`G_`, `angular_vel_bias_`, `linear_acc_bias_`), the two
sample buffers, and the function-local `static bool sensor_inited` of
`UpdatePose` lifted to an explicit field. -/
structure ActivityState where
  initialized : Bool
  sensor_inited : Bool
  q : Quat
  pos : Vec3
  vel : Vec3
  init_time : ℝ
  G : Vec3
  angular_vel_bias : Vec3
  linear_acc_bias : Vec3
  imu_data_buff : List IMUData
  odom_data_buff : List OdomData

namespace Activity

/-- `Activity::GetUnbiasedAngularVel`: `angular_vel - angular_vel_bias_`. -/
def GetUnbiasedAngularVel (st : ActivityState) (angular_vel : Vec3) : Vec3 :=
  angular_vel - st.angular_vel_bias

/-- `Activity::GetUnbiasedLinearAcc`: `R*(linear_acc - linear_acc_bias_) - G_`. -/
def GetUnbiasedLinearAcc (st : ActivityState) (linear_acc : Vec3) (R : Mat3) : Vec3 :=
  R.mulVec (linear_acc - st.linear_acc_bias) - st.G

/-- `Activity::GetAngularDelta`: fails when `index_curr <= index_prev` or
`imu_data_buff_.size() <= index_curr`; otherwise the mid-value (trapezoidal)
angular increment `0.5*dt*(w_curr_unbiased + w_prev_unbiased)`. -/
def GetAngularDelta (st : ActivityState) (index_curr index_prev : ℕ) : Option Vec3 :=
  if h : index_curr ≤ index_prev ∨ st.imu_data_buff.length ≤ index_curr then none
  else
    let imu_data_curr := st.imu_data_buff.get ⟨index_curr, by omega⟩
    let imu_data_prev := st.imu_data_buff.get ⟨index_prev, by omega⟩
    let delta_t := imu_data_curr.time - imu_data_prev.time
    let angular_vel_curr := GetUnbiasedAngularVel st imu_data_curr.angular_velocity
    let angular_vel_prev := GetUnbiasedAngularVel st imu_data_prev.angular_velocity
    some ((0.5 * delta_t) • (angular_vel_curr + angular_vel_prev))

/-- `Activity::GetVelocityDelta`: same index guard; outputs the time step and
the mid-value velocity increment
`0.5*dt*(acc_curr_unbiased + acc_prev_unbiased)`. -/
def GetVelocityDelta (st : ActivityState) (index_curr index_prev : ℕ)
    (R_curr R_prev : Mat3) : Option (ℝ × Vec3) :=
  if h : index_curr ≤ index_prev ∨ st.imu_data_buff.length ≤ index_curr then none
  else
    let imu_data_curr := st.imu_data_buff.get ⟨index_curr, by omega⟩
    let imu_data_prev := st.imu_data_buff.get ⟨index_prev, by omega⟩
    let delta_t := imu_data_curr.time - imu_data_prev.time
    let linear_acc_curr := GetUnbiasedLinearAcc st imu_data_curr.linear_acceleration R_curr
    let linear_acc_prev := GetUnbiasedLinearAcc st imu_data_prev.linear_acceleration R_prev
    some (delta_t, (0.5 * delta_t) • (linear_acc_curr + linear_acc_prev))

/-- `Activity::UpdateOrientation`.  Decomposes `angular_delta` into magnitude
and (Eigen-normalized) direction, builds the incremental quaternion
`dq = (cos(m/2), sin(m/2)*dir)`, composes `q = q_old * dq` on the right,
renormalizes, and writes the result back into the pose's rotation block.
Returns `(R_curr, R_prev, new state)`, matching the source's two output
matrices (current = committed, previous = pre-update).  `none` models the
NaN-poisoned executions reached through a zero-norm normalization. -/
def UpdateOrientation (st : ActivityState) (angular_delta : Vec3) :
    Option (Mat3 × Mat3 × ActivityState) :=
  let angular_delta_mag := angular_delta.norm
  match vnormalize angular_delta with
  | none => none
  | some angular_delta_dir =>
    let angular_delta_cos := Real.cos (angular_delta_mag / 2)
    let angular_delta_sin := Real.sin (angular_delta_mag / 2)
    let dq : Quat :=
      ⟨angular_delta_cos,
       angular_delta_sin * angular_delta_dir.x,
       angular_delta_sin * angular_delta_dir.y,
       angular_delta_sin * angular_delta_dir.z⟩
    match qnormalize (Quat.mul st.q dq) with
    | none => none
    | some qn =>
      some (quatToMatrix qn, quatToMatrix st.q, { st with q := qn })

/-- `Activity::UpdatePosition`: first the translation block is advanced with
the pre-update velocity (`pose_.block<3,1>(0,3) += delta_t*vel_ +
0.5*delta_t*velocity_delta`), then the velocity (`vel_ += velocity_delta`);
the sequencing of the two C++ statements is kept explicit. -/
def UpdatePosition (st : ActivityState) (delta_t : ℝ) (velocity_delta : Vec3) :
    ActivityState :=
  let st1 := { st with pos := st.pos + delta_t • st.vel + (0.5 * delta_t) • velocity_delta }
  { st1 with vel := st1.vel + velocity_delta }

/-- `Activity::HasData`: requires at least two buffered IMU samples AND at
least two buffered odometry samples. -/
def HasData (st : ActivityState) : Bool :=
  if st.imu_data_buff.length < 2 then false
  else if st.odom_data_buff.length < 2 then false
  else true

/-- `Activity::UpdatePose`.  The call `OdomData::SyncData(unsynced,
odom_data_buff_, cloud_time)` lives outside `src/`, so it is abstracted as a
parameter `sync` mapping the current auxiliary buffer and the target time to
the `valid_odom` flag and the new contents of `odom_data_buff_`; every
theorem below quantifies over an arbitrary `sync`.  `none` models executions
with undefined results: `back()` on an empty deque, or the NaN-poisoned
orientation update of a zero angular delta. -/
def UpdatePose (sync : List OdomData → ℝ → Bool × List OdomData)
    (st : ActivityState) : Option (Bool × ActivityState) :=
  if st.initialized = false then
    if st.imu_data_buff.length = 0 then
      some (false, st)
    else
      match st.imu_data_buff.getLast? with
      | none => none
      | some imu_data =>
        let cloud_time := imu_data.time
        let res := sync st.odom_data_buff cloud_time
        let st1 := { st with odom_data_buff := res.2 }
        if st.sensor_inited = false ∧ res.1 = false then
          some (false, st1)
        else
          let st2 := { st1 with sensor_inited := true }
          match st2.odom_data_buff.getLast? with
          | none => none
          | some odom_data =>
            some (true, { st2 with
              q := odom_data.rot,
              pos := odom_data.pos,
              vel := odom_data.vel,
              init_time := odom_data.time,
              initialized := true,
              imu_data_buff := [imu_data],
              odom_data_buff := [odom_data] })
  else
    match st.imu_data_buff.getLast? with
    | none => none
    | some imu_data =>
      let index_curr := st.imu_data_buff.length - 1
      let index_prev := 0
      match GetAngularDelta st index_curr index_prev with
      | none => some (false, st)
      | some angular_delta =>
        match UpdateOrientation st angular_delta with
        | none => none
        | some (R_curr, R_prev, st1) =>
          match GetVelocityDelta st1 index_curr index_prev R_curr R_prev with
          | none => some (false, st1)
          | some (delta_t, velocity_delta) =>
            let st2 := UpdatePosition st1 delta_t velocity_delta
            match st2.odom_data_buff.getLast? with
            | none => none
            | some odom_data =>
              some (true, { st2 with
                imu_data_buff := [imu_data],
                odom_data_buff := [odom_data] })

/-- One iteration of `Activity::Run`'s driver seen from the state: `ReadData`
appends freshly arrived samples to the two buffers, then `UpdatePose` runs. -/
def RunStep (sync : List OdomData → ℝ → Bool × List OdomData)
    (st : ActivityState) (incoming : List IMUData × List OdomData) :
    Option ActivityState :=
  let st1 := { st with
    imu_data_buff := st.imu_data_buff ++ incoming.1,
    odom_data_buff := st.odom_data_buff ++ incoming.2 }
  (UpdatePose sync st1).map Prod.snd

/-- A session: a sequence of `RunStep`s, each with its own batch of incoming
samples. -/
def RunSession (sync : List OdomData → ℝ → Bool × List OdomData) :
    ActivityState → List (List IMUData × List OdomData) → Option ActivityState
  | st, [] => some st
  | st, incoming :: rest =>
    match RunStep sync st incoming with
    | none => none
    | some st1 => RunSession sync st1 rest

end Activity

/-- Spec-side definition (§4.3 of the spec): the exponential map sending a
rotation vector to the incremental quaternion `(cos(m/2), sin(m/2)·d)` with
`m = ‖Δθ‖`, `d = Δθ/m`, and the identity quaternion when `m = 0` (the
mandatory zero-rotation guard). -/
def expQuat (delta : Vec3) : Quat :=
  let m := delta.norm
  if m = 0 then Quat.one
  else
    let d := (1 / m) • delta
    ⟨Real.cos (m / 2), Real.sin (m / 2) * d.x, Real.sin (m / 2) * d.y,
     Real.sin (m / 2) * d.z⟩

/-! ### Componentwise simp lemmas -/

@[simp] theorem Vec3.add_x (a b : Vec3) : (a + b).x = a.x + b.x := rfl

@[simp] theorem Vec3.add_y (a b : Vec3) : (a + b).y = a.y + b.y := rfl

@[simp] theorem Vec3.add_z (a b : Vec3) : (a + b).z = a.z + b.z := rfl

@[simp] theorem Vec3.sub_x (a b : Vec3) : (a - b).x = a.x - b.x := rfl

@[simp] theorem Vec3.sub_y (a b : Vec3) : (a - b).y = a.y - b.y := rfl

@[simp] theorem Vec3.sub_z (a b : Vec3) : (a - b).z = a.z - b.z := rfl

@[simp] theorem Vec3.smul_x (r : ℝ) (v : Vec3) : (r • v).x = r * v.x := rfl

@[simp] theorem Vec3.smul_y (r : ℝ) (v : Vec3) : (r • v).y = r * v.y := rfl

@[simp] theorem Vec3.smul_z (r : ℝ) (v : Vec3) : (r • v).z = r * v.z := rfl

@[simp] theorem Vec3.zero_x : (0 : Vec3).x = 0 := rfl

@[simp] theorem Vec3.zero_y : (0 : Vec3).y = 0 := rfl

@[simp] theorem Vec3.zero_z : (0 : Vec3).z = 0 := rfl

theorem Vec3.add_def (a b : Vec3) : a + b = ⟨a.x + b.x, a.y + b.y, a.z + b.z⟩ := rfl

theorem Vec3.sub_def (a b : Vec3) : a - b = ⟨a.x - b.x, a.y - b.y, a.z - b.z⟩ := rfl

theorem Vec3.smul_def (r : ℝ) (v : Vec3) : r • v = ⟨r * v.x, r * v.y, r * v.z⟩ := rfl

theorem Vec3.zero_def : (0 : Vec3) = ⟨0, 0, 0⟩ := rfl

@[simp] theorem Quat.qsmul_w (r : ℝ) (q : Quat) : (r • q).w = r * q.w := rfl

@[simp] theorem Quat.qsmul_x (r : ℝ) (q : Quat) : (r • q).x = r * q.x := rfl

@[simp] theorem Quat.qsmul_y (r : ℝ) (q : Quat) : (r • q).y = r * q.y := rfl

@[simp] theorem Quat.qsmul_z (r : ℝ) (q : Quat) : (r • q).z = r * q.z := rfl

/-! ### Norm facts -/

theorem Vec3.normSq_nonneg (v : Vec3) : 0 ≤ v.normSq := by
  unfold Vec3.normSq; positivity

theorem Vec3.norm_eq_zero_iff (v : Vec3) : v.norm = 0 ↔ v.normSq = 0 := by
  rw [Vec3.norm, Real.sqrt_eq_zero']
  exact ⟨fun h => le_antisymm h v.normSq_nonneg, fun h => le_of_eq h⟩

theorem Vec3.normSq_smul (r : ℝ) (v : Vec3) : (r • v).normSq = r ^ 2 * v.normSq := by
  simp only [Vec3.normSq, Vec3.smul_x, Vec3.smul_y, Vec3.smul_z]; ring

theorem Vec3.norm_sq_eq (v : Vec3) : v.norm ^ 2 = v.normSq :=
  Real.sq_sqrt v.normSq_nonneg

theorem Quat.qnormSq_nonneg (q : Quat) : 0 ≤ q.normSq := by
  unfold Quat.normSq; positivity

theorem Quat.qnorm_eq_zero_iff (q : Quat) : q.norm = 0 ↔ q.normSq = 0 := by
  rw [Quat.norm, Real.sqrt_eq_zero']
  exact ⟨fun h => le_antisymm h q.qnormSq_nonneg, fun h => le_of_eq h⟩

theorem Quat.qnormSq_smul (r : ℝ) (q : Quat) : (r • q).normSq = r ^ 2 * q.normSq := by
  simp only [Quat.normSq, Quat.qsmul_w, Quat.qsmul_x, Quat.qsmul_y, Quat.qsmul_z]; ring

theorem Quat.qnorm_sq_eq (q : Quat) : q.norm ^ 2 = q.normSq :=
  Real.sq_sqrt q.qnormSq_nonneg

/-- The quaternion norm is multiplicative in the squared form (Euler's
four-square identity for the Hamilton product). -/
theorem Quat.normSq_mul (a b : Quat) :
    (Quat.mul a b).normSq = a.normSq * b.normSq := by
  simp only [Quat.mul, Quat.normSq]; ring

/-- A normalized vector has unit squared norm. -/
theorem Vec3.normSq_normalized {v : Vec3} (h : v.normSq ≠ 0) :
    ((1 / v.norm) • v).normSq = 1 := by
  rw [Vec3.normSq_smul, div_pow, one_pow, Vec3.norm_sq_eq]
  field_simp

/-- `vnormalize` succeeds exactly on vectors of nonzero squared norm. -/
theorem vnormalize_of_normSq_ne_zero {v : Vec3} (h : v.normSq ≠ 0) :
    vnormalize v = some ((1 / v.norm) • v) := by
  rw [vnormalize, if_neg]
  rw [Vec3.norm_eq_zero_iff]; exact h

/-- `qnormalize` on a quaternion of nonzero squared norm divides by the norm. -/
theorem qnormalize_of_normSq_ne_zero {q : Quat} (h : q.normSq ≠ 0) :
    qnormalize q = some ((1 / q.norm) • q) := by
  rw [qnormalize, if_neg]
  rw [Quat.qnorm_eq_zero_iff]; exact h

/-- Renormalizing a quaternion of nonzero squared norm yields unit squared
norm. -/
theorem Quat.qnormSq_normalized {q : Quat} (h : q.normSq ≠ 0) :
    ((1 / q.norm) • q).normSq = 1 := by
  rw [Quat.qnormSq_smul, div_pow, one_pow, Quat.qnorm_sq_eq]
  field_simp

/-! ### Orthonormality of the rotation matrix of a unit quaternion -/

/-- For a unit quaternion, the Eigen rotation matrix has unit-norm, mutually
orthogonal columns and determinant `1`. -/
theorem quatToMatrix_orthonormal {q : Quat} (h : q.normSq = 1) :
    Vec3.dot (quatToMatrix q).col0 (quatToMatrix q).col0 = 1 ∧
    Vec3.dot (quatToMatrix q).col1 (quatToMatrix q).col1 = 1 ∧
    Vec3.dot (quatToMatrix q).col2 (quatToMatrix q).col2 = 1 ∧
    Vec3.dot (quatToMatrix q).col0 (quatToMatrix q).col1 = 0 ∧
    Vec3.dot (quatToMatrix q).col0 (quatToMatrix q).col2 = 0 ∧
    Vec3.dot (quatToMatrix q).col1 (quatToMatrix q).col2 = 0 ∧
    (quatToMatrix q).det = 1 := by
  simp only [Quat.normSq] at h
  refine ⟨?_, ?_, ?_, ?_, ?_, ?_, ?_⟩ <;>
    simp only [quatToMatrix, Mat3.col0, Mat3.col1, Mat3.col2, Vec3.dot, Mat3.det]
  · linear_combination (4 * (q.y ^ 2 + q.z ^ 2)) * h
  · linear_combination (4 * (q.x ^ 2 + q.z ^ 2)) * h
  · linear_combination (4 * (q.x ^ 2 + q.y ^ 2)) * h
  · linear_combination (-4 * (q.x * q.y)) * h
  · linear_combination (-4 * (q.x * q.z)) * h
  · linear_combination (-4 * (q.y * q.z)) * h
  · linear_combination (4 * (q.x ^ 2 + q.y ^ 2 + q.z ^ 2)) * h

/-! ### Unfolding the orientation update -/

/-- On a rotation vector of nonzero norm, `expQuat` takes its else branch. -/
theorem expQuat_of_norm_ne_zero {delta : Vec3} (hm : delta.norm ≠ 0) :
    expQuat delta =
      ⟨Real.cos (delta.norm / 2),
       Real.sin (delta.norm / 2) * ((1 / delta.norm) • delta).x,
       Real.sin (delta.norm / 2) * ((1 / delta.norm) • delta).y,
       Real.sin (delta.norm / 2) * ((1 / delta.norm) • delta).z⟩ := by
  simp only [expQuat]
  rw [if_neg hm]

/-- The incremental quaternion `(cos(m/2), sin(m/2)·d)` built over any unit
direction `d` is a unit quaternion. -/
theorem dq_normSq (m : ℝ) {dir : Vec3} (h : dir.normSq = 1) :
    (⟨Real.cos (m / 2), Real.sin (m / 2) * dir.x, Real.sin (m / 2) * dir.y,
      Real.sin (m / 2) * dir.z⟩ : Quat).normSq = 1 := by
  simp only [Quat.normSq]
  simp only [Vec3.normSq] at h
  linear_combination (Real.sin (m / 2)) ^ 2 * h + Real.cos_sq_add_sin_sq (m / 2)

/-- The exponential-map quaternion is always a unit quaternion. -/
theorem expQuat_normSq (delta : Vec3) : (expQuat delta).normSq = 1 := by
  by_cases hm : delta.norm = 0
  · simp only [expQuat]
    rw [if_pos hm]
    simp only [Quat.one, Quat.normSq]
    norm_num
  · have hd : delta.normSq ≠ 0 := fun hc => hm ((Vec3.norm_eq_zero_iff delta).mpr hc)
    rw [expQuat_of_norm_ne_zero hm]
    exact dq_normSq delta.norm (Vec3.normSq_normalized hd)

/-- Inversion for `vnormalize`: success implies a nonzero norm and the usual
division formula. -/
theorem vnormalize_inv {v d : Vec3} (h : vnormalize v = some d) :
    v.norm ≠ 0 ∧ d = (1 / v.norm) • v := by
  by_cases h0 : v.norm = 0
  · rw [vnormalize, if_pos h0] at h
    exact absurd h (by simp)
  · rw [vnormalize, if_neg h0] at h
    injection h with h1
    exact ⟨h0, h1.symm⟩

/-- Inversion for `qnormalize`. -/
theorem qnormalize_inv {q q' : Quat} (h : qnormalize q = some q') :
    q.norm ≠ 0 ∧ q' = (1 / q.norm) • q := by
  by_cases h0 : q.norm = 0
  · rw [qnormalize, if_pos h0] at h
    exact absurd h (by simp)
  · rw [qnormalize, if_neg h0] at h
    injection h with h1
    exact ⟨h0, h1.symm⟩

/-- `Activity::UpdateOrientation` on a nonzero rotation vector and a pose
with nonzero quaternion: the committed orientation is the renormalized
right-composition of the old orientation with the exponential-map increment,
and the returned matrices are the new and the old rotation blocks. -/
theorem UpdateOrientation_eq (st : ActivityState) (delta : Vec3)
    (hd : delta.normSq ≠ 0) (hq : st.q.normSq ≠ 0) :
    Activity.UpdateOrientation st delta =
      some (quatToMatrix
              ((1 / (Quat.mul st.q (expQuat delta)).norm) • Quat.mul st.q (expQuat delta)),
            quatToMatrix st.q,
            { st with
              q := (1 / (Quat.mul st.q (expQuat delta)).norm) •
                Quat.mul st.q (expQuat delta) }) := by
  have hm : delta.norm ≠ 0 := fun hc => hd ((Vec3.norm_eq_zero_iff delta).mp hc)
  have hq1 : (Quat.mul st.q (expQuat delta)).normSq ≠ 0 := by
    rw [Quat.normSq_mul, expQuat_normSq, mul_one]; exact hq
  rw [expQuat_of_norm_ne_zero hm] at hq1 ⊢
  simp only [Activity.UpdateOrientation, vnormalize_of_normSq_ne_zero hd,
    qnormalize_of_normSq_ne_zero hq1]

/-! ### Claim C1 -/

/-- C1: for every angular delta with nonzero magnitude (and a pose whose
orientation quaternion is nonzero, which every committed rotation block
satisfies), `UpdateOrientation` builds the exponential-map increment
`dq = (cos(m/2), sin(m/2)·d)`, composes by right-multiplication
`q_new = q_old * dq`, renormalizes `q_new` to unit length, writes it back as
the pose's rotation block (the `{st with q := ...}` state), and returns the
newly committed rotation matrix together with the pre-update one. -/
theorem C1_update_orientation (st : ActivityState) (delta : Vec3)
    (hd : delta.normSq ≠ 0) (hq : st.q.normSq ≠ 0) :
    Activity.UpdateOrientation st delta =
      some (quatToMatrix
              ((1 / (Quat.mul st.q (expQuat delta)).norm) • Quat.mul st.q (expQuat delta)),
            quatToMatrix st.q,
            { st with
              q := (1 / (Quat.mul st.q (expQuat delta)).norm) •
                Quat.mul st.q (expQuat delta) }) ∧
    ((1 / (Quat.mul st.q (expQuat delta)).norm) •
        Quat.mul st.q (expQuat delta)).normSq = 1 := by
  have hq1 : (Quat.mul st.q (expQuat delta)).normSq ≠ 0 := by
    rw [Quat.normSq_mul, expQuat_normSq, mul_one]; exact hq
  exact ⟨UpdateOrientation_eq st delta hd hq, Quat.qnormSq_normalized hq1⟩

/-- A concrete activity state with identity orientation (used to instantiate
C1). -/
def stC1 : ActivityState :=
  { initialized := true, sensor_inited := true, q := Quat.one, pos := 0, vel := 0,
    init_time := 0, G := ⟨0, 0, -9.81⟩, angular_vel_bias := 0, linear_acc_bias := 0,
    imu_data_buff := [], odom_data_buff := [] }

/-- Witness for C1 at the rotation vector `(1,0,0)` and the identity
orientation. -/
theorem C1_update_orientation_witness :
    (⟨1, 0, 0⟩ : Vec3).normSq ≠ 0 ∧ stC1.q.normSq ≠ 0 ∧
    (Activity.UpdateOrientation stC1 ⟨1, 0, 0⟩ =
      some (quatToMatrix
              ((1 / (Quat.mul stC1.q (expQuat ⟨1, 0, 0⟩)).norm) •
                Quat.mul stC1.q (expQuat ⟨1, 0, 0⟩)),
            quatToMatrix stC1.q,
            { stC1 with
              q := (1 / (Quat.mul stC1.q (expQuat ⟨1, 0, 0⟩)).norm) •
                Quat.mul stC1.q (expQuat ⟨1, 0, 0⟩) }) ∧
     ((1 / (Quat.mul stC1.q (expQuat ⟨1, 0, 0⟩)).norm) •
        Quat.mul stC1.q (expQuat ⟨1, 0, 0⟩)).normSq = 1) :=
  ⟨by norm_num [Vec3.normSq],
   by norm_num [stC1, Quat.one, Quat.normSq],
   C1_update_orientation stC1 ⟨1, 0, 0⟩ (by norm_num [Vec3.normSq])
     (by norm_num [stC1, Quat.one, Quat.normSq])⟩

/-! ### Claim C4 -/

/-- A concrete activity state with identity orientation (used to exhibit the
zero-delta behavior for C4). -/
def stC4 : ActivityState :=
  { initialized := true, sensor_inited := true, q := Quat.one, pos := 0, vel := 0,
    init_time := 0, G := ⟨0, 0, -9.81⟩, angular_vel_bias := 0, linear_acc_bias := 0,
    imu_data_buff := [], odom_data_buff := [] }

/-- C4 (code bug): with the zero angular delta, `UpdateOrientation` has no
well-defined result.  The source normalizes the zero vector
(`angular_delta.normalized()` divides by the zero norm, producing NaN
direction components in IEEE arithmetic); the NaNs survive multiplication by
`sin(0/2) = 0` (`0 * NaN = NaN`), poison the incremental quaternion and the
composed orientation, and the NaN rotation block is written back into the
pose — instead of the identity increment and unchanged orientation that the
spec mandates. -/
theorem C4_zero_delta_undefined :
    Activity.UpdateOrientation stC4 ⟨0, 0, 0⟩ = none := by
  have h0 : (⟨0, 0, 0⟩ : Vec3).norm = 0 := by
    simp [Vec3.norm, Vec3.normSq]
  simp only [Activity.UpdateOrientation, vnormalize, if_pos h0]

/-! ### Claim C6 -/

/-- A concrete activity state whose orientation is the unit quaternion
`(0.6, 0.8, 0, 0)` (an orthonormal rotation block), used for C6. -/
def stC6 : ActivityState :=
  { initialized := true, sensor_inited := true, q := ⟨0.6, 0.8, 0, 0⟩, pos := 0, vel := 0,
    init_time := 0, G := ⟨0, 0, -9.81⟩, angular_vel_bias := 0, linear_acc_bias := 0,
    imu_data_buff := [], odom_data_buff := [] }

/-- C6 counterexample: the claim quantifies over *every* angular delta, but
for the zero delta the call has no well-defined committed rotation — the
source divides by the zero norm of the delta and writes a NaN-poisoned block
into the pose — even from a perfectly orthonormal starting orientation.  So
"after every UpdateOrientation call the stored rotation block is
orthonormal" fails at `Δθ = (0,0,0)`. -/
theorem C6_counterexample :
    stC6.q.normSq = 1 ∧ Activity.UpdateOrientation stC6 ⟨0, 0, 0⟩ = none := by
  constructor
  · norm_num [stC6, Quat.normSq]
  · have h0 : (⟨0, 0, 0⟩ : Vec3).norm = 0 := by
      simp [Vec3.norm, Vec3.normSq]
    simp only [Activity.UpdateOrientation, vnormalize, if_pos h0]

/-- C6 (amended): after every `UpdateOrientation` call that produces a
defined result (equivalently, every call with a nonzero angular delta) from
an orthonormal starting orientation (unit quaternion), the rotation block
committed to the pose is orthonormal: its columns are unit-norm and mutually
orthogonal and its determinant is `1`, because the composed quaternion is
renormalized before conversion. -/
theorem C6_orthonormal_after_update (st : ActivityState) (delta : Vec3)
    (R_curr R_prev : Mat3) (st1 : ActivityState)
    (hq : st.q.normSq = 1)
    (h : Activity.UpdateOrientation st delta = some (R_curr, R_prev, st1)) :
    R_curr = quatToMatrix st1.q ∧
    Vec3.dot R_curr.col0 R_curr.col0 = 1 ∧
    Vec3.dot R_curr.col1 R_curr.col1 = 1 ∧
    Vec3.dot R_curr.col2 R_curr.col2 = 1 ∧
    Vec3.dot R_curr.col0 R_curr.col1 = 0 ∧
    Vec3.dot R_curr.col0 R_curr.col2 = 0 ∧
    Vec3.dot R_curr.col1 R_curr.col2 = 0 ∧
    R_curr.det = 1 := by
  unfold Activity.UpdateOrientation at h
  rcases hv : vnormalize delta with _ | dir
  · rw [hv] at h
    exact Option.noConfusion h
  · rw [hv] at h
    dsimp only at h
    obtain ⟨hm, hdir⟩ := vnormalize_inv hv
    have hdS : delta.normSq ≠ 0 := fun hc => hm ((Vec3.norm_eq_zero_iff delta).mpr hc)
    have hdirU : dir.normSq = 1 := by
      rw [hdir]; exact Vec3.normSq_normalized hdS
    rcases hqn : qnormalize (Quat.mul st.q
        ⟨Real.cos (delta.norm / 2), Real.sin (delta.norm / 2) * dir.x,
         Real.sin (delta.norm / 2) * dir.y, Real.sin (delta.norm / 2) * dir.z⟩)
      with _ | qn
    · rw [hqn] at h
      exact Option.noConfusion h
    · rw [hqn] at h
      injection h with h'
      have h1 : quatToMatrix qn = R_curr := congrArg Prod.fst h'
      have h3 : ({ st with q := qn } : ActivityState) = st1 :=
        congrArg Prod.snd (congrArg Prod.snd h')
      have hmulU : (Quat.mul st.q
          ⟨Real.cos (delta.norm / 2), Real.sin (delta.norm / 2) * dir.x,
           Real.sin (delta.norm / 2) * dir.y,
           Real.sin (delta.norm / 2) * dir.z⟩).normSq = 1 := by
        rw [Quat.normSq_mul, hq, dq_normSq delta.norm hdirU, mul_one]
      have hqnU : qn.normSq = 1 := by
        obtain ⟨-, hqn2⟩ := qnormalize_inv hqn
        rw [hqn2]
        exact Quat.qnormSq_normalized (by rw [hmulU]; norm_num)
      obtain ⟨o1, o2, o3, o4, o5, o6, o7⟩ := quatToMatrix_orthonormal hqnU
      subst h1
      refine ⟨?_, o1, o2, o3, o4, o5, o6, o7⟩
      rw [← h3]

/-- The renormalized composed quaternion of the C6 witness call. -/
def qC6 : Quat :=
  (1 / (Quat.mul stC6.q (expQuat ⟨0, 2, 0⟩)).norm) • Quat.mul stC6.q (expQuat ⟨0, 2, 0⟩)

/-- Witness for C6 at the rotation vector `(0,2,0)` and the unit starting
quaternion `(0.6, 0.8, 0, 0)`. -/
theorem C6_orthonormal_after_update_witness :
    stC6.q.normSq = 1 ∧
    (quatToMatrix qC6 = quatToMatrix ({ stC6 with q := qC6 } : ActivityState).q ∧
     Vec3.dot (quatToMatrix qC6).col0 (quatToMatrix qC6).col0 = 1 ∧
     Vec3.dot (quatToMatrix qC6).col1 (quatToMatrix qC6).col1 = 1 ∧
     Vec3.dot (quatToMatrix qC6).col2 (quatToMatrix qC6).col2 = 1 ∧
     Vec3.dot (quatToMatrix qC6).col0 (quatToMatrix qC6).col1 = 0 ∧
     Vec3.dot (quatToMatrix qC6).col0 (quatToMatrix qC6).col2 = 0 ∧
     Vec3.dot (quatToMatrix qC6).col1 (quatToMatrix qC6).col2 = 0 ∧
     (quatToMatrix qC6).det = 1) :=
  ⟨by norm_num [stC6, Quat.normSq],
   C6_orthonormal_after_update stC6 ⟨0, 2, 0⟩ (quatToMatrix qC6)
     (quatToMatrix stC6.q) { stC6 with q := qC6 }
     (by norm_num [stC6, Quat.normSq])
     (UpdateOrientation_eq stC6 ⟨0, 2, 0⟩ (by norm_num [Vec3.normSq])
       (by norm_num [stC6, Quat.normSq]))⟩

/-! ### Claim C2 -/

/-- C2: for valid buffer indices `index_prev < index_curr < size`, both delta
computations succeed and return exactly the trapezoidal average of the
bias-compensated (and, for the velocity, gravity-compensated) endpoint
values times the time step `dt = t_curr - t_prev`. -/
theorem C2_midvalue_deltas (st : ActivityState) (index_curr index_prev : ℕ)
    (R_curr R_prev : Mat3)
    (hpc : index_prev < index_curr)
    (hcl : index_curr < st.imu_data_buff.length)
    (hpl : index_prev < st.imu_data_buff.length) :
    Activity.GetAngularDelta st index_curr index_prev =
      some ((0.5 * ((st.imu_data_buff.get ⟨index_curr, hcl⟩).time -
          (st.imu_data_buff.get ⟨index_prev, hpl⟩).time)) •
        (((st.imu_data_buff.get ⟨index_curr, hcl⟩).angular_velocity -
            st.angular_vel_bias) +
         ((st.imu_data_buff.get ⟨index_prev, hpl⟩).angular_velocity -
            st.angular_vel_bias))) ∧
    Activity.GetVelocityDelta st index_curr index_prev R_curr R_prev =
      some ((st.imu_data_buff.get ⟨index_curr, hcl⟩).time -
              (st.imu_data_buff.get ⟨index_prev, hpl⟩).time,
            (0.5 * ((st.imu_data_buff.get ⟨index_curr, hcl⟩).time -
                (st.imu_data_buff.get ⟨index_prev, hpl⟩).time)) •
              ((R_curr.mulVec
                  ((st.imu_data_buff.get ⟨index_curr, hcl⟩).linear_acceleration -
                    st.linear_acc_bias) - st.G) +
               (R_prev.mulVec
                  ((st.imu_data_buff.get ⟨index_prev, hpl⟩).linear_acceleration -
                    st.linear_acc_bias) - st.G))) := by
  have hg : ¬(index_curr ≤ index_prev ∨ st.imu_data_buff.length ≤ index_curr) := by omega
  constructor
  · rw [Activity.GetAngularDelta, dif_neg hg]
    rfl
  · rw [Activity.GetVelocityDelta, dif_neg hg]
    rfl

/-- First C2 witness sample. -/
def imuC2a : IMUData := ⟨0, ⟨1, 0, 0⟩, ⟨0, 0, 1⟩⟩

/-- Second C2 witness sample. -/
def imuC2b : IMUData := ⟨2, ⟨3, 0, 0⟩, ⟨0, 0, 3⟩⟩

/-- A concrete activity state with two buffered IMU samples, used to
instantiate C2. -/
def stC2 : ActivityState :=
  { initialized := true, sensor_inited := true, q := Quat.one, pos := 0, vel := 0,
    init_time := 0, G := ⟨0, 0, -9.81⟩, angular_vel_bias := 0, linear_acc_bias := 0,
    imu_data_buff := [imuC2a, imuC2b], odom_data_buff := [] }

/-- Witness for C2 at the index pair `(1, 0)` on a two-sample buffer. -/
theorem C2_midvalue_deltas_witness :
    (0 : ℕ) < 1 ∧ 1 < stC2.imu_data_buff.length ∧ 0 < stC2.imu_data_buff.length ∧
    (Activity.GetAngularDelta stC2 1 0 =
      some ((0.5 * ((stC2.imu_data_buff.get ⟨1, by simp [stC2]⟩).time -
          (stC2.imu_data_buff.get ⟨0, by simp [stC2]⟩).time)) •
        (((stC2.imu_data_buff.get ⟨1, by simp [stC2]⟩).angular_velocity -
            stC2.angular_vel_bias) +
         ((stC2.imu_data_buff.get ⟨0, by simp [stC2]⟩).angular_velocity -
            stC2.angular_vel_bias))) ∧
     Activity.GetVelocityDelta stC2 1 0 Mat3.id3 Mat3.id3 =
      some ((stC2.imu_data_buff.get ⟨1, by simp [stC2]⟩).time -
              (stC2.imu_data_buff.get ⟨0, by simp [stC2]⟩).time,
            (0.5 * ((stC2.imu_data_buff.get ⟨1, by simp [stC2]⟩).time -
                (stC2.imu_data_buff.get ⟨0, by simp [stC2]⟩).time)) •
              ((Mat3.id3.mulVec
                  ((stC2.imu_data_buff.get ⟨1, by simp [stC2]⟩).linear_acceleration -
                    stC2.linear_acc_bias) - stC2.G) +
               (Mat3.id3.mulVec
                  ((stC2.imu_data_buff.get ⟨0, by simp [stC2]⟩).linear_acceleration -
                    stC2.linear_acc_bias) - stC2.G)))) :=
  ⟨by decide, by simp [stC2], by simp [stC2],
   C2_midvalue_deltas stC2 1 0 Mat3.id3 Mat3.id3 (by decide) (by simp [stC2])
     (by simp [stC2])⟩

/-! ### Claim C3 -/

/-- C3: `UpdatePosition` advances the translation block using the pre-update
velocity (`p + dt·v + 0.5·dt·Δv`), only afterwards advances the velocity
(`v + Δv`), and modifies no other component of the pose or state — the
result is exactly the record that changes `pos` and `vel` and keeps every
other field. -/
theorem C3_update_position (st : ActivityState) (delta_t : ℝ) (velocity_delta : Vec3) :
    Activity.UpdatePosition st delta_t velocity_delta =
      { st with
        pos := st.pos + delta_t • st.vel + (0.5 * delta_t) • velocity_delta,
        vel := st.vel + velocity_delta } := rfl

/-! ### Claim C5 -/

/-- C5 counterexample sample at index 0 (the "previous" endpoint), with the
LATER timestamp. -/
def imuC5a : IMUData := ⟨1, ⟨0, 0, 2⟩, ⟨0, 0, 0⟩⟩

/-- C5 counterexample sample at index 1 (the "current" endpoint), with the
EARLIER timestamp. -/
def imuC5b : IMUData := ⟨0.5, ⟨0, 0, 2⟩, ⟨0, 0, 0⟩⟩

/-- A concrete activity state whose two buffered samples are out of
timestamp order. -/
def stC5 : ActivityState :=
  { initialized := true, sensor_inited := true, q := Quat.one, pos := 0, vel := 0,
    init_time := 0, G := ⟨0, 0, -9.81⟩, angular_vel_bias := 0, linear_acc_bias := 0,
    imu_data_buff := [imuC5a, imuC5b], odom_data_buff := [] }

/-- C5 counterexample: the buffered pair at indices `(1, 0)` has
`t_curr = 0.5 ≤ 1 = t_prev`, yet both delta computations SUCCEED — the
guards test only the indices, never the timestamps — and the angular delta
is computed over a negative time step (`dt = -0.5`, giving `(0,0,-1)`). -/
theorem C5_counterexample :
    (stC5.imu_data_buff.get ⟨1, by simp [stC5]⟩).time ≤
      (stC5.imu_data_buff.get ⟨0, by simp [stC5]⟩).time ∧
    Activity.GetAngularDelta stC5 1 0 = some ⟨0, 0, -1⟩ ∧
    (Activity.GetVelocityDelta stC5 1 0 Mat3.id3 Mat3.id3).isSome = true := by
  have hg : ¬((1 : ℕ) ≤ 0 ∨ stC5.imu_data_buff.length ≤ 1) := by simp [stC5]
  refine ⟨?_, ?_, ?_⟩
  · show (0.5 : ℝ) ≤ (1 : ℝ)
    norm_num
  · rw [Activity.GetAngularDelta, dif_neg hg]
    show some ((0.5 * ((0.5 : ℝ) - 1)) •
        (((⟨0, 0, 2⟩ : Vec3) - 0) + ((⟨0, 0, 2⟩ : Vec3) - 0))) = some (⟨0, 0, -1⟩ : Vec3)
    norm_num [Vec3.sub_def, Vec3.add_def, Vec3.smul_def, Vec3.zero_def, Vec3.mk.injEq]
  · rw [Activity.GetVelocityDelta, dif_neg hg]
    rfl

/-- C5 (amended): the delta computations fail exactly when
`index_curr ≤ index_prev` or `index_curr` is out of range; timestamps are
never inspected, so buffered pairs with `t_curr ≤ t_prev` at valid indices
succeed and produce a zero- or negative-duration integration step. -/
theorem C5_guard_is_index_only (st : ActivityState) (index_curr index_prev : ℕ)
    (R_curr R_prev : Mat3) :
    (Activity.GetAngularDelta st index_curr index_prev = none ↔
      (index_curr ≤ index_prev ∨ st.imu_data_buff.length ≤ index_curr)) ∧
    (Activity.GetVelocityDelta st index_curr index_prev R_curr R_prev = none ↔
      (index_curr ≤ index_prev ∨ st.imu_data_buff.length ≤ index_curr)) := by
  by_cases hg : index_curr ≤ index_prev ∨ st.imu_data_buff.length ≤ index_curr
  · rw [Activity.GetAngularDelta, dif_pos hg, Activity.GetVelocityDelta, dif_pos hg]
    simp [hg]
  · rw [Activity.GetAngularDelta, dif_neg hg, Activity.GetVelocityDelta, dif_neg hg]
    simp [hg]

/-! ### Claim C7 -/

/-- The C7 scenario state: gravity `(0,0,-9.81)`, zero biases, identity
initial orientation, zero initial position and velocity, and the two
inertial samples of the claim (`t=0` and `t=0.1`, zero angular velocity,
specific force `(0,0,9.81)`). -/
def stC7 : ActivityState :=
  { initialized := true, sensor_inited := true, q := Quat.one, pos := 0, vel := 0,
    init_time := 0, G := ⟨0, 0, -9.81⟩, angular_vel_bias := 0, linear_acc_bias := 0,
    imu_data_buff := [⟨0, 0, ⟨0, 0, 9.81⟩⟩, ⟨0.1, 0, ⟨0, 0, 9.81⟩⟩],
    odom_data_buff := [] }

/-- C7 counterexample: at the claim's exact configuration the compensated
specific force is `R·(f-b) - G = (0,0,9.81) - (0,0,-9.81) = (0,0,19.62)`,
not `(0,0,0)` — the claimed scenario contradicts the compensation formula
the code (and §4.2 of the spec) actually uses. -/
theorem C7_counterexample :
    Activity.GetUnbiasedLinearAcc stC7 ⟨0, 0, 9.81⟩ Mat3.id3 = ⟨0, 0, 19.62⟩ ∧
    (⟨0, 0, 19.62⟩ : Vec3) ≠ ⟨0, 0, 0⟩ := by
  constructor
  · show Mat3.id3.mulVec ((⟨0, 0, 9.81⟩ : Vec3) - 0) - (⟨0, 0, -9.81⟩ : Vec3) =
      (⟨0, 0, 19.62⟩ : Vec3)
    norm_num [Mat3.id3, Mat3.mulVec, Vec3.sub_def, Vec3.zero_def, Vec3.mk.injEq]
  · simp only [Ne, Vec3.mk.injEq, not_and]
    intro _ _
    norm_num

/-- The amended C7 scenario state: identical, except that the specific force
of both samples is `(0,0,-9.81)` — the value for which the code's
compensation `R·(f-b) - G` is actually zero. -/
def stC7a : ActivityState :=
  { initialized := true, sensor_inited := true, q := Quat.one, pos := 0, vel := 0,
    init_time := 0, G := ⟨0, 0, -9.81⟩, angular_vel_bias := 0, linear_acc_bias := 0,
    imu_data_buff := [⟨0, 0, ⟨0, 0, -9.81⟩⟩, ⟨0.1, 0, ⟨0, 0, -9.81⟩⟩],
    odom_data_buff := [] }

/-- C7 (amended): same scenario but with specific force `(0,0,-9.81)` (and
zero initial velocity): the compensated specific force is `(0,0,0)` at both
samples, the velocity delta over the pair `(1,0)` is `some (0.1, (0,0,0))`,
and the position/velocity update with that delta leaves both position and
velocity unchanged.  (The orientation path of the full cycle independently
hits the unguarded zero-delta normalization — claim C4.) -/
theorem C7_amended_scenario :
    Activity.GetUnbiasedLinearAcc stC7a ⟨0, 0, -9.81⟩ Mat3.id3 = ⟨0, 0, 0⟩ ∧
    Activity.GetVelocityDelta stC7a 1 0 Mat3.id3 Mat3.id3 = some (0.1, ⟨0, 0, 0⟩) ∧
    (Activity.UpdatePosition stC7a 0.1 ⟨0, 0, 0⟩).pos = stC7a.pos ∧
    (Activity.UpdatePosition stC7a 0.1 ⟨0, 0, 0⟩).vel = stC7a.vel := by
  have hacc : Activity.GetUnbiasedLinearAcc stC7a ⟨0, 0, -9.81⟩ Mat3.id3 = ⟨0, 0, 0⟩ := by
    show Mat3.id3.mulVec ((⟨0, 0, -9.81⟩ : Vec3) - 0) - (⟨0, 0, -9.81⟩ : Vec3) =
      (⟨0, 0, 0⟩ : Vec3)
    norm_num [Mat3.id3, Mat3.mulVec, Vec3.sub_def, Vec3.zero_def, Vec3.mk.injEq]
  have hg : ¬((1 : ℕ) ≤ 0 ∨ stC7a.imu_data_buff.length ≤ 1) := by simp [stC7a]
  refine ⟨hacc, ?_, ?_, ?_⟩
  · rw [Activity.GetVelocityDelta, dif_neg hg]
    show some (((0.1 : ℝ) - 0),
        (0.5 * ((0.1 : ℝ) - 0)) •
          ((Mat3.id3.mulVec ((⟨0, 0, -9.81⟩ : Vec3) - 0) - (⟨0, 0, -9.81⟩ : Vec3)) +
           (Mat3.id3.mulVec ((⟨0, 0, -9.81⟩ : Vec3) - 0) - (⟨0, 0, -9.81⟩ : Vec3)))) =
      some ((0.1 : ℝ), (⟨0, 0, 0⟩ : Vec3))
    norm_num [Mat3.id3, Mat3.mulVec, Vec3.sub_def, Vec3.add_def, Vec3.smul_def,
      Vec3.zero_def, Prod.mk.injEq, Vec3.mk.injEq]
  · show stC7a.pos + (0.1 : ℝ) • stC7a.vel + (0.5 * (0.1 : ℝ)) • (⟨0, 0, 0⟩ : Vec3) =
      stC7a.pos
    norm_num [stC7a, Vec3.add_def, Vec3.smul_def, Vec3.zero_def, Vec3.mk.injEq]
    rfl
  · show stC7a.vel + (⟨0, 0, 0⟩ : Vec3) = stC7a.vel
    norm_num [stC7a, Vec3.add_def, Vec3.zero_def, Vec3.mk.injEq]
    rfl

/-! ### Inversion and preservation lemmas for the cycle -/

/-- Inversion for a successful `UpdateOrientation`: the delta and the old
quaternion are nonzero, the new state only replaces the orientation
quaternion by the renormalized right-composition, and the returned matrices
are the new and old rotation blocks. -/
theorem UpdateOrientation_inversion (st : ActivityState) (delta : Vec3)
    (Rc Rp : Mat3) (st1 : ActivityState)
    (h : Activity.UpdateOrientation st delta = some (Rc, Rp, st1)) :
    delta.normSq ≠ 0 ∧ st.q.normSq ≠ 0 ∧
    st1 = { st with
      q := (1 / (Quat.mul st.q (expQuat delta)).norm) • Quat.mul st.q (expQuat delta) } ∧
    Rc = quatToMatrix st1.q ∧ Rp = quatToMatrix st.q := by
  unfold Activity.UpdateOrientation at h
  rcases hv : vnormalize delta with _ | dir
  · rw [hv] at h
    exact Option.noConfusion h
  · rw [hv] at h
    dsimp only at h
    obtain ⟨hm, hdir⟩ := vnormalize_inv hv
    subst hdir
    have hdS : delta.normSq ≠ 0 := fun hc => hm ((Vec3.norm_eq_zero_iff delta).mpr hc)
    rw [← expQuat_of_norm_ne_zero hm] at h
    rcases hqn : qnormalize (Quat.mul st.q (expQuat delta)) with _ | qn
    · rw [hqn] at h
      exact Option.noConfusion h
    · rw [hqn] at h
      obtain ⟨hq1, hqneq⟩ := qnormalize_inv hqn
      have hqS : st.q.normSq ≠ 0 := by
        intro hc
        apply hq1
        rw [Quat.qnorm_eq_zero_iff, Quat.normSq_mul, hc, zero_mul]
      injection h with h'
      have hRc : quatToMatrix qn = Rc := congrArg Prod.fst h'
      have hRp : quatToMatrix st.q = Rp := congrArg Prod.fst (congrArg Prod.snd h')
      have hst : ({ st with q := qn } : ActivityState) = st1 :=
        congrArg Prod.snd (congrArg Prod.snd h')
      subst hqneq
      refine ⟨hdS, hqS, hst.symm, ?_, hRp.symm⟩
      rw [← hRc, ← hst]

/-- A successful `UpdatePose` from an initialized state stays initialized and
keeps `init_time`. -/
theorem UpdatePose_initialized_step (sync : List OdomData → ℝ → Bool × List OdomData)
    (st : ActivityState) (b : Bool) (st1 : ActivityState)
    (hinit : st.initialized = true)
    (h : Activity.UpdatePose sync st = some (b, st1)) :
    st1.initialized = true ∧ st1.init_time = st.init_time := by
  unfold Activity.UpdatePose at h
  rw [if_neg (by simp [hinit])] at h
  rcases hback : st.imu_data_buff.getLast? with _ | imu_data
  · rw [hback] at h
    exact Option.noConfusion h
  · rw [hback] at h
    dsimp only at h
    rcases hga : Activity.GetAngularDelta st (st.imu_data_buff.length - 1) 0 with _ | delta
    · rw [hga] at h
      injection h with h'
      have h2 : st = st1 := congrArg Prod.snd h'
      rw [← h2]
      exact ⟨hinit, rfl⟩
    · rw [hga] at h
      dsimp only at h
      rcases huo : Activity.UpdateOrientation st delta with _ | trip
      · rw [huo] at h
        exact Option.noConfusion h
      · obtain ⟨Rc, Rp, stm⟩ := trip
        rw [huo] at h
        dsimp only at h
        obtain ⟨-, -, hstm, -, -⟩ := UpdateOrientation_inversion st delta Rc Rp stm huo
        have hstmi : stm.initialized = true := by rw [hstm]; exact hinit
        have hstmt : stm.init_time = st.init_time := by rw [hstm]
        rcases hvd : Activity.GetVelocityDelta stm (st.imu_data_buff.length - 1) 0 Rc Rp
          with _ | pair
        · rw [hvd] at h
          injection h with h'
          have h2 : stm = st1 := congrArg Prod.snd h'
          rw [← h2]
          exact ⟨hstmi, hstmt⟩
        · obtain ⟨dt, dv⟩ := pair
          rw [hvd] at h
          dsimp only at h
          rcases hod : (Activity.UpdatePosition stm dt dv).odom_data_buff.getLast?
            with _ | od
          · rw [hod] at h
            exact Option.noConfusion h
          · rw [hod] at h
            injection h with h'
            have h2 : ({ Activity.UpdatePosition stm dt dv with
                imu_data_buff := [imu_data],
                odom_data_buff := [od] } : ActivityState) = st1 :=
              congrArg Prod.snd h'
            rw [← h2]
            exact ⟨hstmi, hstmt⟩

/-- Along any session run that starts initialized, the state stays
initialized and `init_time` never changes. -/
theorem RunSession_initialized (sync : List OdomData → ℝ → Bool × List OdomData)
    (inputs : List (List IMUData × List OdomData)) (st st1 : ActivityState)
    (hinit : st.initialized = true)
    (h : Activity.RunSession sync st inputs = some st1) :
    st1.initialized = true ∧ st1.init_time = st.init_time := by
  induction inputs generalizing st with
  | nil =>
    unfold Activity.RunSession at h
    injection h with h'
    rw [← h']
    exact ⟨hinit, rfl⟩
  | cons input rest ih =>
    unfold Activity.RunSession at h
    rcases hs : Activity.RunStep sync st input with _ | stm
    · rw [hs] at h
      exact Option.noConfusion h
    · rw [hs] at h
      dsimp only at h
      unfold Activity.RunStep at hs
      dsimp only at hs
      rcases hup : Activity.UpdatePose sync
          { st with
            imu_data_buff := st.imu_data_buff ++ input.1,
            odom_data_buff := st.odom_data_buff ++ input.2 } with _ | pair
      · rw [hup] at hs
        exact Option.noConfusion hs
      · obtain ⟨b, stx⟩ := pair
        rw [hup] at hs
        injection hs with hs'
        obtain ⟨hi, ht⟩ := UpdatePose_initialized_step sync
          { st with
            imu_data_buff := st.imu_data_buff ++ input.1,
            odom_data_buff := st.odom_data_buff ++ input.2 } b stx hinit hup
        obtain ⟨hfi, hft⟩ := ih stm (by rw [← hs']; exact hi) h
        refine ⟨hfi, ?_⟩
        rw [hft, ← hs']
        exact ht

/-- A successful initialization pass (`UpdatePose` returning `true` from an
uninitialized state) copies pose/velocity/time from the synchronized
auxiliary sample it retains, and sets the initialized flag. -/
theorem UpdatePose_init_step (sync : List OdomData → ℝ → Bool × List OdomData)
    (st st1 : ActivityState)
    (hinit : st.initialized = false)
    (h : Activity.UpdatePose sync st = some (true, st1)) :
    ∃ od : OdomData,
      st1.odom_data_buff = [od] ∧ st1.initialized = true ∧
      st1.init_time = od.time ∧ st1.q = od.rot ∧ st1.pos = od.pos ∧
      st1.vel = od.vel := by
  unfold Activity.UpdatePose at h
  rw [if_pos hinit] at h
  by_cases hlen : st.imu_data_buff.length = 0
  · rw [if_pos hlen] at h
    injection h with h'
    exact absurd (congrArg Prod.fst h') (by simp)
  · rw [if_neg hlen] at h
    rcases hback : st.imu_data_buff.getLast? with _ | imu_data
    · rw [hback] at h
      exact Option.noConfusion h
    · rw [hback] at h
      try dsimp only at h
      by_cases hval : st.sensor_inited = false ∧
          (sync st.odom_data_buff imu_data.time).1 = false
      · rw [if_pos hval] at h
        injection h with h'
        exact absurd (congrArg Prod.fst h') (by simp)
      · rw [if_neg hval] at h
        try dsimp only at h
        rcases hod : (sync st.odom_data_buff imu_data.time).2.getLast? with _ | od
        · rw [hod] at h
          exact Option.noConfusion h
        · rw [hod] at h
          injection h with h'
          injection h' with hb hst
          subst hst
          exact ⟨od, rfl, rfl, rfl, rfl, rfl, rfl⟩

/-! ### Claim C8 -/

/-- C8: the `initialized` flag is irreversible and `init_time` is fixed at
initialization.  First conjunct: along every session run (any number of
`UpdatePose` calls with arbitrary interleaved sample arrivals and an
arbitrary synchronizer) that starts initialized, the state stays initialized
with an unchanged `init_time` — hence the flag transitions `false → true` at
most once and nothing ever clears it or moves `init_time` afterwards.
Second conjunct: the successful initialization pass itself sets
`initialized = true` and copies pose, velocity and timestamp from the
synchronized auxiliary sample it retains. -/
theorem C8_initialized_irreversible :
    (∀ (sync : List OdomData → ℝ → Bool × List OdomData)
       (inputs : List (List IMUData × List OdomData)) (st st1 : ActivityState),
        st.initialized = true → Activity.RunSession sync st inputs = some st1 →
        st1.initialized = true ∧ st1.init_time = st.init_time) ∧
    (∀ (sync : List OdomData → ℝ → Bool × List OdomData) (st st1 : ActivityState),
        st.initialized = false → Activity.UpdatePose sync st = some (true, st1) →
        ∃ od : OdomData,
          st1.odom_data_buff = [od] ∧ st1.initialized = true ∧
          st1.init_time = od.time ∧ st1.q = od.rot ∧ st1.pos = od.pos ∧
          st1.vel = od.vel) :=
  ⟨fun sync inputs st st1 hinit h => RunSession_initialized sync inputs st st1 hinit h,
   fun sync st st1 hinit h => UpdatePose_init_step sync st st1 hinit h⟩

/-- A synchronizer oracle that declares the buffer valid and keeps it. -/
def syncKeep : List OdomData → ℝ → Bool × List OdomData := fun buff _ => (true, buff)

/-- The C8 witness IMU sample. -/
def imuC8 : IMUData := ⟨3, ⟨1, 0, 0⟩, ⟨0, 0, 1⟩⟩

/-- The C8 witness auxiliary sample. -/
def odC8 : OdomData := ⟨5, Quat.one, ⟨1, 2, 3⟩, ⟨4, 5, 6⟩⟩

/-- The C8 witness uninitialized state. -/
def stC8 : ActivityState :=
  { initialized := false, sensor_inited := false, q := Quat.one, pos := 0, vel := 0,
    init_time := 0, G := ⟨0, 0, -9.81⟩, angular_vel_bias := 0, linear_acc_bias := 0,
    imu_data_buff := [imuC8], odom_data_buff := [odC8] }

/-- The state committed by the C8 witness initialization pass. -/
def stC8i : ActivityState :=
  { initialized := true, sensor_inited := true, q := odC8.rot, pos := odC8.pos,
    vel := odC8.vel, init_time := odC8.time, G := ⟨0, 0, -9.81⟩,
    angular_vel_bias := 0, linear_acc_bias := 0,
    imu_data_buff := [imuC8], odom_data_buff := [odC8] }

/-- Witness for C8: the empty run from an initialized state, and a concrete
successful initialization pass. -/
theorem C8_initialized_irreversible_witness :
    (stC8i.initialized = true ∧
     Activity.RunSession syncKeep stC8i [] = some stC8i ∧
     (stC8i.initialized = true ∧ stC8i.init_time = stC8i.init_time)) ∧
    (stC8.initialized = false ∧
     Activity.UpdatePose syncKeep stC8 = some (true, stC8i) ∧
     (∃ od : OdomData,
        stC8i.odom_data_buff = [od] ∧ stC8i.initialized = true ∧
        stC8i.init_time = od.time ∧ stC8i.q = od.rot ∧ stC8i.pos = od.pos ∧
        stC8i.vel = od.vel)) :=
  ⟨⟨rfl, rfl, C8_initialized_irreversible.1 syncKeep [] stC8i stC8i rfl rfl⟩,
   ⟨rfl, rfl, C8_initialized_irreversible.2 syncKeep stC8 stC8i rfl rfl⟩⟩

/-! ### Claim C9 -/

/-- A C9 auxiliary sample. -/
def odC9 : OdomData := ⟨0, Quat.one, 0, 0⟩

/-- An initialized state with two buffered inertial samples but only one
auxiliary sample. -/
def stC9 : ActivityState :=
  { initialized := true, sensor_inited := true, q := Quat.one, pos := 0, vel := 0,
    init_time := 0, G := ⟨0, 0, -9.81⟩, angular_vel_bias := 0, linear_acc_bias := 0,
    imu_data_buff := [⟨0, ⟨1, 0, 0⟩, ⟨0, 0, 1⟩⟩, ⟨1, ⟨1, 0, 0⟩, ⟨0, 0, 1⟩⟩],
    odom_data_buff := [odC9] }

/-- C9 counterexample: an initialized state with two buffered inertial
samples but a single auxiliary sample fails `HasData`, so `Run`'s
`while (HasData())` loop never reaches `UpdatePose` and the navigation state
does not advance — the auxiliary stream remains load-bearing for state
propagation after initialization. -/
theorem C9_counterexample :
    stC9.initialized = true ∧ 2 ≤ stC9.imu_data_buff.length ∧
    Activity.HasData stC9 = false := by
  refine ⟨rfl, by simp [stC9], rfl⟩

/-- C9 (amended): the cycle-gating predicate `HasData` holds exactly when
BOTH buffers hold at least two samples; after initialization the auxiliary
buffer's size still gates whether the integrating cycle runs (its contents
feed only initialization seeding, retention and logging). -/
theorem C9_hasdata_gates_on_both_buffers (st : ActivityState) :
    Activity.HasData st = true ↔
      2 ≤ st.imu_data_buff.length ∧ 2 ≤ st.odom_data_buff.length := by
  unfold Activity.HasData
  by_cases h1 : st.imu_data_buff.length < 2
  · rw [if_pos h1]
    simp
    omega
  · rw [if_neg h1]
    by_cases h2 : st.odom_data_buff.length < 2
    · rw [if_pos h2]
      simp
      omega
    · rw [if_neg h2]
      simp
      omega

/-! ### Claim C10 -/

/-- The C10 counterexample state: initialized, two buffered inertial samples
whose angular velocities are both zero (so the mid-value angular delta of
the cycle is the zero vector), and one auxiliary sample. -/
def stC10 : ActivityState :=
  { initialized := true, sensor_inited := true, q := Quat.one, pos := 0, vel := 0,
    init_time := 0, G := ⟨0, 0, -9.81⟩, angular_vel_bias := 0, linear_acc_bias := 0,
    imu_data_buff := [⟨0, 0, ⟨0, 0, 9.81⟩⟩, ⟨0.1, 0, ⟨0, 0, 9.81⟩⟩],
    odom_data_buff := [⟨0, Quat.one, 0, 0⟩] }

/-- C10 counterexample: from an initialized state with two buffered inertial
samples, `UpdatePose` does NOT always return true: when the two samples
carry equal (here zero) bias-corrected angular velocities the angular delta
is the zero vector, the cycle reaches the unguarded zero-norm normalization
inside `UpdateOrientation`, and the execution has no well-defined result
(NaN-poisoned state in IEEE arithmetic) instead of a committed update. -/
theorem C10_counterexample :
    stC10.initialized = true ∧ 2 ≤ stC10.imu_data_buff.length ∧
    Activity.UpdatePose syncKeep stC10 = none := by
  have hga : Activity.GetAngularDelta stC10 (stC10.imu_data_buff.length - 1) 0 =
      some ⟨0, 0, 0⟩ := by
    rw [Activity.GetAngularDelta, dif_neg (by simp [stC10])]
    show some ((0.5 * ((0.1 : ℝ) - 0)) • (((0 : Vec3) - 0) + ((0 : Vec3) - 0))) =
      some (⟨0, 0, 0⟩ : Vec3)
    norm_num [Vec3.sub_def, Vec3.add_def, Vec3.smul_def, Vec3.zero_def, Vec3.mk.injEq]
  have huo : Activity.UpdateOrientation stC10 ⟨0, 0, 0⟩ = none := by
    have h0 : (⟨0, 0, 0⟩ : Vec3).norm = 0 := by
      simp [Vec3.norm, Vec3.normSq]
    simp only [Activity.UpdateOrientation, vnormalize, if_pos h0]
  refine ⟨rfl, by simp [stC10], ?_⟩
  unfold Activity.UpdatePose
  rw [if_neg (by simp [stC10])]
  rw [show stC10.imu_data_buff.getLast? = some ⟨0.1, 0, ⟨0, 0, 9.81⟩⟩ from rfl]
  dsimp only
  rw [hga]
  dsimp only
  rw [huo]

/-- C10 (amended): once initialized, with at least two buffered inertial
samples, a NONZERO mid-value angular delta for the endpoint pair
`(size-1, 0)`, a nonzero orientation quaternion and a NONEMPTY auxiliary
buffer, `UpdatePose` returns true: the index guards of both delta routines
pass, the cycle commits the state update and retains exactly the newest
inertial and the newest auxiliary sample. -/
theorem C10_integrating_commits (sync : List OdomData → ℝ → Bool × List OdomData)
    (st : ActivityState) (delta : Vec3)
    (hinit : st.initialized = true)
    (hlen : 2 ≤ st.imu_data_buff.length)
    (hodne : st.odom_data_buff ≠ [])
    (hga : Activity.GetAngularDelta st (st.imu_data_buff.length - 1) 0 = some delta)
    (hd : delta.normSq ≠ 0)
    (hq : st.q.normSq ≠ 0) :
    ∃ st2 : ActivityState,
      Activity.UpdatePose sync st = some (true, st2) ∧
      st2.initialized = true ∧
      st2.imu_data_buff =
        [st.imu_data_buff.getLast (List.length_pos.mp (by omega))] ∧
      st2.odom_data_buff = [st.odom_data_buff.getLast hodne] := by
  have himu_ne : st.imu_data_buff ≠ [] := List.length_pos.mp (by omega)
  unfold Activity.UpdatePose
  rw [if_neg (by simp [hinit])]
  rw [List.getLast?_eq_getLast _ himu_ne]
  dsimp only
  rw [hga]
  dsimp only
  rw [UpdateOrientation_eq st delta hd hq]
  dsimp only
  rw [Activity.GetVelocityDelta,
    dif_neg (show ¬(st.imu_data_buff.length - 1 ≤ 0 ∨
      st.imu_data_buff.length ≤ st.imu_data_buff.length - 1) by omega)]
  dsimp only [Activity.UpdatePosition]
  rw [List.getLast?_eq_getLast _ hodne]
  exact ⟨_, rfl, hinit, rfl, rfl⟩

/-- The C10 witness state: two samples one second apart with constant
angular velocity `(2,0,0)`, giving the nonzero angular delta `(2,0,0)`. -/
def stC10w : ActivityState :=
  { initialized := true, sensor_inited := true, q := Quat.one, pos := 0, vel := 0,
    init_time := 0, G := ⟨0, 0, -9.81⟩, angular_vel_bias := 0, linear_acc_bias := 0,
    imu_data_buff := [⟨0, ⟨2, 0, 0⟩, ⟨0, 0, 0⟩⟩, ⟨1, ⟨2, 0, 0⟩, ⟨0, 0, 0⟩⟩],
    odom_data_buff := [⟨0, Quat.one, 0, 0⟩] }

/-- Witness for the amended C10 at the concrete two-sample state. -/
theorem C10_integrating_commits_witness :
    ∃ st2 : ActivityState,
      Activity.UpdatePose syncKeep stC10w = some (true, st2) ∧
      st2.initialized = true ∧
      st2.imu_data_buff =
        [stC10w.imu_data_buff.getLast (by simp [stC10w])] ∧
      st2.odom_data_buff = [stC10w.odom_data_buff.getLast (by simp [stC10w])] :=
  C10_integrating_commits syncKeep stC10w ⟨2, 0, 0⟩ rfl (by simp [stC10w])
    (by simp [stC10w])
    (by
      rw [Activity.GetAngularDelta, dif_neg (by simp [stC10w])]
      show some ((0.5 * ((1 : ℝ) - 0)) •
          (((⟨2, 0, 0⟩ : Vec3) - 0) + ((⟨2, 0, 0⟩ : Vec3) - 0))) =
        some (⟨2, 0, 0⟩ : Vec3)
      norm_num [Vec3.sub_def, Vec3.add_def, Vec3.smul_def, Vec3.zero_def, Vec3.mk.injEq])
    (by norm_num [Vec3.normSq])
    (by norm_num [stC10w, Quat.one, Quat.normSq])

end ImuIntegration
